import Mathlib

/-!
Shallow embedding of the event-dispatch engine in `ex3.py`
(`Event`, `EventSubscriber`, `EventBus.publish` / `subscribe` / `add_filter` /
`_should_handle`), together with theorems settling the specification claims.

Python classes of events become an explicit tag type `EventType` mirroring the
classes declared in the source (`Event` as root, with `UserActionEvent`,
`SystemAlertEvent`, `DataChangeEvent` as direct subclasses); `type(event)` in
the Python code becomes the `ty` field of an event.  Python dictionaries keyed
by event class become insertion-ordered association lists.  Code that can
raise (a subscriber's `can_handle`/`handle`, a filter function) returns
`Except Err`.  The observable side effects of a `publish` call — which
handlers get invoked, which filter predicates get evaluated, which error
messages get printed by the `except` block — are collected in a trace of
`Action`s, and the Python return value of `publish` (always `None`) is
modelled as an `Option` of the spec-level report type.
-/

namespace EventDispatch

/-- The event classes declared in the source: `Event` is the root class and
the three sample event classes are its direct subclasses. -/
inductive EventType where
  | event
  | userAction
  | systemAlert
  | dataChange
deriving DecidableEq, Repr

/-- The (single-inheritance) superclass of each event class; `Event` is the
root and has none. -/
def parentOf : EventType → Option EventType
  | .event => none
  | .userAction => some .event
  | .systemAlert => some .event
  | .dataChange => some .event

/-- `refines c a` holds when category `c` is `a` itself or a descendant of
`a` in the class hierarchy (the hierarchy of the source has depth two, so one
parent step suffices). -/
def refines (c a : EventType) : Bool :=
  decide (c = a) || decide (parentOf c = some a)

/-- Error detail carried by a raised Python exception (its `str(e)`). -/
abbrev Err := String

/-- The `Event` dataclass of the source: `name`, opaque `data` (default
`None`), plus the tag recording which event class the object belongs to. -/
structure Event where
  ty : EventType
  name : String
  data : Option Int := none

/-- An `EventSubscriber`: `can_handle` and `handle` are arbitrary client code
and may raise; `sid` is the object's identity, used in traces. -/
structure EventSubscriber where
  sid : Nat
  can_handle : Event → Except Err Bool
  handle : Event → Except Err Unit

/-- A filter function registered via `add_filter`; may raise. -/
abbrev FilterFunc := Event → Except Err Bool

/-- The `EventBus` state: `_subscribers` and `_filters`, each a dict from
event class to an ordered list, modelled as insertion-ordered association
lists with unique keys. -/
structure EventBus where
  subscribers : List (EventType × List EventSubscriber) := []
  filters : List (EventType × List FilterFunc) := []

/-- Observable actions during a dispatch: a subscriber's `can_handle` being
evaluated, a filter predicate being evaluated (identified by its category key
and position in that category's filter list), a subscriber's `handle` being
invoked, and the error message printed by the `except` block of `publish`. -/
inductive Action where
  | canHandleEvaluated (sid : Nat)
  | filterEvaluated (ty : EventType) (idx : Nat)
  | handleInvoked (sid : Nat)
  | errorPrinted (eventName : String) (msg : String)
deriving DecidableEq, Repr

/-- Dict lookup: `d[k]` when `k in d`, `none` otherwise. -/
def dictFind {α : Type} (d : List (EventType × α)) (k : EventType) : Option α :=
  match d with
  | [] => none
  | (k', v) :: rest => if k' = k then some v else dictFind rest k

/-- The combined `if k not in d: d[k] = []` followed by `d[k].append(v)`
pattern used by both `subscribe` and `add_filter`: appends `v` to the list at
key `k`, creating a one-element list at the end of the dict if `k` is absent. -/
def dictAppend {α : Type} (d : List (EventType × List α)) (k : EventType) (v : α) :
    List (EventType × List α) :=
  match d with
  | [] => [(k, [v])]
  | (k', vs) :: rest =>
      if k' = k then (k', vs ++ [v]) :: rest else (k', vs) :: dictAppend rest k v

/-- The subscriber list registered at a category (empty when the key is
absent from the dict). -/
def subscribersAt (bus : EventBus) (ty : EventType) : List EventSubscriber :=
  (dictFind bus.subscribers ty).getD []

/-- The filter list registered at a category (empty when the key is absent
from the dict). -/
def filtersAt (bus : EventBus) (ty : EventType) : List FilterFunc :=
  (dictFind bus.filters ty).getD []

/-- `EventBus.subscribe`: create the list if the event class is absent, then
append the subscriber. -/
def subscribe (bus : EventBus) (ty : EventType) (s : EventSubscriber) : EventBus :=
  { bus with subscribers := dictAppend bus.subscribers ty s }

/-- `EventBus.add_filter`: create the list if the event class is absent, then
append the filter function. -/
def add_filter (bus : EventBus) (ty : EventType) (f : FilterFunc) : EventBus :=
  { bus with filters := dictAppend bus.filters ty f }

/-- `all(filter_func(event) for filter_func in fs)`: evaluates the filters in
order, short-circuiting at the first `False`; a raising filter aborts the
evaluation with that exception.  Returns the result together with the trace
of filter evaluations (`i` is the list position of the first filter). -/
def evalFilters (ty : EventType) (e : Event) :
    List FilterFunc → Nat → Except Err Bool × List Action
  | [], _ => (.ok true, [])
  | f :: fs, i =>
      match f e with
      | .error m => (.error m, [.filterEvaluated ty i])
      | .ok false => (.ok false, [.filterEvaluated ty i])
      | .ok true =>
          let r := evalFilters ty e fs (i + 1)
          (r.1, .filterEvaluated ty i :: r.2)

/-- `EventBus._should_handle`: check the subscriber's own `can_handle` first
(returning `False` without touching the filters when it rejects), then apply
the filters registered for the event's exact class, if any.  Exceptions from
`can_handle` or a filter propagate to the caller. -/
def should_handle (bus : EventBus) (e : Event) (s : EventSubscriber) :
    Except Err Bool × List Action :=
  match s.can_handle e with
  | .error m => (.error m, [.canHandleEvaluated s.sid])
  | .ok false => (.ok false, [.canHandleEvaluated s.sid])
  | .ok true =>
      match dictFind bus.filters e.ty with
      | none => (.ok true, [.canHandleEvaluated s.sid])
      | some fs =>
          let r := evalFilters e.ty e fs 0
          (r.1, .canHandleEvaluated s.sid :: r.2)

/-- Trace of the `except` block applied to the result of `handle`: an error
is printed with the event name and the exception detail, success prints
nothing. -/
def handleResultTrace (e : Event) (r : Except Err Unit) : List Action :=
  match r with
  | .error m => [.errorPrinted e.name m]
  | .ok _ => []

/-- One iteration of the `for subscriber in ...` loop of `publish`: the
`try` block runs `_should_handle` and, when it returns `True`, invokes
`handle`; any exception from either is caught and printed. -/
def candidateStep (bus : EventBus) (e : Event) (s : EventSubscriber) : List Action :=
  match should_handle bus e s with
  | (.error m, t) => t ++ [.errorPrinted e.name m]
  | (.ok false, t) => t
  | (.ok true, t) => t ++ [.handleInvoked s.sid] ++ handleResultTrace e (s.handle e)

/-- The whole candidate loop of `publish`, over the subscriber list found for
the event's exact class. -/
def dispatchLoop (bus : EventBus) (e : Event) : List EventSubscriber → List Action
  | [] => []
  | s :: rest => candidateStep bus e s ++ dispatchLoop bus e rest

/-- Modelled from the spec: the per-subscriber outcome that §4.3 requires a
`DispatchReport` to record.  The source code has no counterpart. -/
inductive Outcome where
  | delivered
  | skippedSelf
  | skippedFiltered
  | failed (msg : Err)
deriving DecidableEq, Repr

/-- Modelled from the spec: a `DispatchReport` lists, per attempted
subscriber (by identity), one outcome.  The source code has no counterpart. -/
abbrev DispatchReport := List (Nat × Outcome)

/-- The result of a `publish` call: the Python return value (`ret`, where
`none` is Python's `None` and `some r` would be a returned report object),
the trace of observable actions, and the bus state after the call. -/
structure PublishResult where
  ret : Option DispatchReport
  trace : List Action
  bus : EventBus

/-- `EventBus.publish`: look up the event's exact class in `_subscribers`;
if absent, return immediately; otherwise run the candidate loop.  Both paths
end in a plain `return`, i.e. Python `None`. -/
def publish (bus : EventBus) (e : Event) : PublishResult :=
  match dictFind bus.subscribers e.ty with
  | none => ⟨none, [], bus⟩
  | some subs => ⟨none, dispatchLoop bus e subs, bus⟩

/-! Sample subscribers, filters and events used as concrete inputs. -/

/-- A subscriber that accepts every event and handles it successfully
(the `LoggingHandler` shape). -/
def okSub (i : Nat) : EventSubscriber :=
  ⟨i, fun _ => .ok true, fun _ => .ok ()⟩

/-- A subscriber whose `can_handle` rejects every event. -/
def rejectSub (i : Nat) : EventSubscriber :=
  ⟨i, fun _ => .ok false, fun _ => .ok ()⟩

/-- A subscriber that accepts every event but whose `handle` raises. -/
def failSub (i : Nat) : EventSubscriber :=
  ⟨i, fun _ => .ok true, fun _ => .error "boom"⟩

/-- A filter predicate that raises on every event. -/
def raiseFilter : FilterFunc := fun _ => .error "bad filter"

/-- A filter predicate that rejects every event. -/
def falseFilter : FilterFunc := fun _ => .ok false

/-- A filter predicate that accepts every event. -/
def trueFilter : FilterFunc := fun _ => .ok true

/-- A sample `UserActionEvent`. -/
def uaEvent : Event := ⟨.userAction, "login", none⟩

/-! Helper lemmas about the dict operations and the dispatch loop. -/

theorem dictFind_dictAppend_self {α : Type} (d : List (EventType × List α))
    (k : EventType) (v : α) :
    dictFind (dictAppend d k v) k = some ((dictFind d k).getD [] ++ [v]) := by
  induction d with
  | nil => simp [dictFind, dictAppend]
  | cons p d ih =>
      rcases p with ⟨k', vs⟩
      by_cases h : k' = k
      · subst h
        simp [dictFind, dictAppend]
      · simp [dictFind, dictAppend, h, ih]

theorem subscribersAt_subscribe (bus : EventBus) (ty : EventType) (s : EventSubscriber) :
    subscribersAt (subscribe bus ty s) ty = subscribersAt bus ty ++ [s] := by
  simp [subscribersAt, subscribe, dictFind_dictAppend_self]

theorem dispatchLoop_append (bus : EventBus) (e : Event) (l1 l2 : List EventSubscriber) :
    dispatchLoop bus e (l1 ++ l2) = dispatchLoop bus e l1 ++ dispatchLoop bus e l2 := by
  induction l1 with
  | nil => rfl
  | cons s l1 ih => simp [dispatchLoop, ih]

theorem evalFilters_trace_shape (ty : EventType) (e : Event) (fs : List FilterFunc) (i : Nat) :
    ∀ a ∈ (evalFilters ty e fs i).2, ∃ j, a = Action.filterEvaluated ty j := by
  induction fs generalizing i with
  | nil =>
      intro a ha
      simp [evalFilters] at ha
  | cons f fs ih =>
      intro a ha
      cases hf : f e with
      | error m =>
          simp [evalFilters, hf] at ha
          exact ⟨i, ha⟩
      | ok b =>
          cases b with
          | false =>
              simp [evalFilters, hf] at ha
              exact ⟨i, ha⟩
          | true =>
              simp [evalFilters, hf] at ha
              rcases ha with ha | ha
              · exact ⟨i, ha⟩
              · exact ih (i + 1) a ha

theorem should_handle_trace_no_handleInvoked (bus : EventBus) (e : Event)
    (s : EventSubscriber) :
    ∀ i, Action.handleInvoked i ∉ (should_handle bus e s).2 := by
  intro i hmem
  unfold should_handle at hmem
  cases hch : s.can_handle e with
  | error m => simp [hch] at hmem
  | ok b =>
      cases b with
      | false => simp [hch] at hmem
      | true =>
          cases hd : dictFind bus.filters e.ty with
          | none => simp [hch, hd] at hmem
          | some fs =>
              simp [hch, hd] at hmem
              obtain ⟨j, hj⟩ := evalFilters_trace_shape e.ty e fs 0 _ hmem
              exact Action.noConfusion hj

theorem evalFilters_ok_true_iff (ty : EventType) (e : Event) (fs : List FilterFunc) (i : Nat) :
    (evalFilters ty e fs i).1 = .ok true ↔ ∀ f ∈ fs, f e = .ok true := by
  induction fs generalizing i with
  | nil => simp [evalFilters]
  | cons f fs ih =>
      cases hf : f e with
      | error m => simp [evalFilters, hf]
      | ok b =>
          cases b with
          | false => simp [evalFilters, hf]
          | true => simp [evalFilters, hf, ih (i + 1)]

/-! Claim theorems. -/

/-- C1: the claim says category resolution is hierarchical: a subscriber
registered at an ancestor category (here the root `Event`) is a candidate for
every event of a refining category.  Evaluating the code at the failing
input: a subscriber registered at the root category, with `can_handle`
accepting everything, receives nothing when a `UserActionEvent` (which
refines the root) is published — `publish` looks up only the event's exact
class, finds no key, and returns with an empty trace. -/
theorem root_subscriber_misses_refined_event :
    refines .userAction .event = true ∧
    (okSub 1).can_handle uaEvent = .ok true ∧
    subscribersAt (subscribe {} .event (okSub 1)) .event = [okSub 1] ∧
    (publish (subscribe {} .event (okSub 1)) uaEvent).trace = [] :=
  ⟨rfl, rfl, rfl, rfl⟩

/-- C2 counterexample: the claim says `publish`/dispatch returns a
`DispatchReport` recording one outcome per attempted candidate.  At a
concrete input where one candidate is attempted and delivered (the trace
shows its `can_handle` evaluation and its `handle` invocation), the return
value is `none` — Python `None`, not a report object. -/
theorem delivered_but_no_report :
    (publish (subscribe {} .userAction (okSub 1)) uaEvent).trace =
      [.canHandleEvaluated 1, .handleInvoked 1] ∧
    (publish (subscribe {} .userAction (okSub 1)) uaEvent).ret = none :=
  ⟨rfl, rfl⟩

/-- C2 amended: `publish` always returns `None` — per-subscriber outcomes
are never returned to the caller; handler and filter errors surface only as
printed messages. -/
theorem publish_ret_none (bus : EventBus) (e : Event) : (publish bus e).ret = none := by
  unfold publish
  cases dictFind bus.subscribers e.ty <;> rfl

/-- C5 counterexample: the claim says publishing with zero subscribers
returns an *empty report*; the code returns `None`, which is not a report
object (empty or otherwise). -/
theorem empty_publish_returns_none_not_empty_report :
    (publish ({} : EventBus) uaEvent).ret = none ∧
    (publish ({} : EventBus) uaEvent).ret ≠ some ([] : DispatchReport) :=
  ⟨rfl, fun h => Option.noConfusion h⟩

/-- C5 amended: for an event with zero subscribers at its exact category and
at every ancestor, `publish` returns `None`, invokes no handler, evaluates
no filter and prints no error (empty trace), and raises nothing. -/
theorem publish_no_subscribers_silent (bus : EventBus) (e : Event)
    (h : ∀ c, refines e.ty c = true → subscribersAt bus c = []) :
    (publish bus e).ret = none ∧ (publish bus e).trace = [] := by
  have hx : subscribersAt bus e.ty = [] := h e.ty (by simp [refines])
  unfold subscribersAt at hx
  unfold publish
  cases hd : dictFind bus.subscribers e.ty with
  | none => exact ⟨rfl, rfl⟩
  | some subs =>
      rw [hd] at hx
      simp at hx
      subst hx
      exact ⟨rfl, rfl⟩

/-- Witness for C5 amended at the empty bus. -/
theorem publish_no_subscribers_silent_witness :
    (publish ({} : EventBus) uaEvent).ret = none ∧
    (publish ({} : EventBus) uaEvent).trace = [] :=
  publish_no_subscribers_silent {} uaEvent (fun _ _ => rfl)

/-- C6: when the candidate self-accepts, `_should_handle` returns `True`
iff every filter registered for the event's exact category accepts the
event; with an empty or absent filter list the condition is vacuous, so the
result is `True`. -/
theorem should_handle_filter_conjunction (bus : EventBus) (e : Event) (s : EventSubscriber)
    (hacc : s.can_handle e = .ok true) :
    (should_handle bus e s).1 = .ok true ↔ ∀ f ∈ filtersAt bus e.ty, f e = .ok true := by
  unfold should_handle
  rw [hacc]
  cases hd : dictFind bus.filters e.ty with
  | none => simp [filtersAt, hd]
  | some fs => simp [filtersAt, hd, evalFilters_ok_true_iff]

/-- Witness for C6 at a bus with one accepting filter. -/
theorem should_handle_filter_conjunction_witness :
    (should_handle (add_filter {} .userAction trueFilter) uaEvent (okSub 1)).1 = .ok true ↔
      ∀ f ∈ filtersAt (add_filter {} .userAction trueFilter) uaEvent.ty,
        f uaEvent = .ok true :=
  should_handle_filter_conjunction (add_filter {} .userAction trueFilter) uaEvent (okSub 1) rfl

/-- C8: a candidate whose `can_handle` returns `False` contributes only its
`can_handle` evaluation to the trace — no filter is evaluated for it and its
`handle` is not invoked — and the loop continues with the remaining
candidates unchanged. -/
theorem self_reject_skips_filters (bus : EventBus) (e : Event) (s : EventSubscriber)
    (rest : List EventSubscriber) (h : s.can_handle e = .ok false) :
    candidateStep bus e s = [.canHandleEvaluated s.sid] ∧
    dispatchLoop bus e (s :: rest) =
      .canHandleEvaluated s.sid :: dispatchLoop bus e rest := by
  have hc : candidateStep bus e s = [.canHandleEvaluated s.sid] := by
    unfold candidateStep should_handle
    rw [h]
  refine ⟨hc, ?_⟩
  show candidateStep bus e s ++ dispatchLoop bus e rest = _
  rw [hc]
  rfl

/-- Witness for C8 with a rejecting candidate followed by an accepting one. -/
theorem self_reject_skips_filters_witness :
    candidateStep {} uaEvent (rejectSub 3) = [.canHandleEvaluated 3] ∧
    dispatchLoop {} uaEvent (rejectSub 3 :: [okSub 4]) =
      .canHandleEvaluated 3 :: dispatchLoop {} uaEvent [okSub 4] :=
  self_reject_skips_filters {} uaEvent (rejectSub 3) [okSub 4] rfl

/-- C10: `publish` never mutates the bus: the state after the call is the
state before it, so every category maps to the same subscriber list and the
same filter list afterwards. -/
theorem publish_preserves_registry (bus : EventBus) (e : Event) :
    (publish bus e).bus = bus ∧
    ∀ c, subscribersAt (publish bus e).bus c = subscribersAt bus c ∧
      filtersAt (publish bus e).bus c = filtersAt bus c := by
  have h : (publish bus e).bus = bus := by
    unfold publish
    cases dictFind bus.subscribers e.ty <;> rfl
  exact ⟨h, fun c => ⟨by rw [h], by rw [h]⟩⟩

/-- C3: when a candidate self-accepts, passes the filters, and its `handle`
raises, `publish` still returns normally (`None`), the trace records the
printed error message for that candidate, and the remaining candidates are
processed exactly as they would be on their own — the failure neither
propagates nor aborts the rest of the dispatch. -/
theorem handler_failure_isolated (bus : EventBus) (e : Event) (s : EventSubscriber)
    (m : Err) (l1 l2 : List EventSubscriber)
    (hsubs : dictFind bus.subscribers e.ty = some (l1 ++ s :: l2))
    (hacc : (should_handle bus e s).1 = .ok true)
    (hfail : s.handle e = .error m) :
    (publish bus e).ret = none ∧
    (publish bus e).trace =
      dispatchLoop bus e l1 ++
        ((should_handle bus e s).2 ++ [.handleInvoked s.sid, .errorPrinted e.name m]) ++
        dispatchLoop bus e l2 := by
  have hstep : candidateStep bus e s =
      (should_handle bus e s).2 ++ [.handleInvoked s.sid, .errorPrinted e.name m] := by
    rcases hsh : should_handle bus e s with ⟨r, t⟩
    rw [hsh] at hacc
    simp at hacc
    subst hacc
    unfold candidateStep
    rw [hsh, hfail]
    simp [handleResultTrace]
  have hpub : publish bus e = ⟨none, dispatchLoop bus e (l1 ++ s :: l2), bus⟩ := by
    unfold publish
    rw [hsubs]
  rw [hpub]
  refine ⟨rfl, ?_⟩
  show dispatchLoop bus e (l1 ++ s :: l2) = _
  rw [dispatchLoop_append bus e l1 (s :: l2)]
  show dispatchLoop bus e l1 ++ (candidateStep bus e s ++ dispatchLoop bus e l2) = _
  rw [hstep]
  simp [List.append_assoc]

/-- Witness for C3: a failing handler followed by a succeeding one. -/
theorem handler_failure_isolated_witness :
    (publish (subscribe (subscribe {} .userAction (failSub 1)) .userAction (okSub 2))
        uaEvent).ret = none ∧
    (publish (subscribe (subscribe {} .userAction (failSub 1)) .userAction (okSub 2))
        uaEvent).trace =
      dispatchLoop (subscribe (subscribe {} .userAction (failSub 1)) .userAction (okSub 2))
          uaEvent [] ++
        ((should_handle (subscribe (subscribe {} .userAction (failSub 1)) .userAction (okSub 2))
            uaEvent (failSub 1)).2 ++
          [.handleInvoked (failSub 1).sid, .errorPrinted uaEvent.name "boom"]) ++
        dispatchLoop (subscribe (subscribe {} .userAction (failSub 1)) .userAction (okSub 2))
          uaEvent [okSub 2] :=
  handler_failure_isolated
    (subscribe (subscribe {} .userAction (failSub 1)) .userAction (okSub 2))
    uaEvent (failSub 1) "boom" [] [okSub 2] rfl rfl rfl

/-- C4: `subscribe` appends the subscriber to its category's ordered list,
creating the list when the key is absent; and after subscribing S1 then S2
at the same (previously empty, unfiltered) category, publishing a matching
event produces a trace in which S1's `handle` invocation comes strictly
before S2's. -/
theorem subscribe_appends_and_orders (bus : EventBus) (ty : EventType)
    (S1 S2 : EventSubscriber) (e : Event)
    (hty : e.ty = ty)
    (habs : dictFind bus.subscribers ty = none)
    (hfil : dictFind bus.filters ty = none)
    (h1 : S1.can_handle e = .ok true)
    (h2 : S2.can_handle e = .ok true) :
    (∀ (b : EventBus) (t : EventType) (s : EventSubscriber),
        subscribersAt (subscribe b t s) t = subscribersAt b t ++ [s]) ∧
    (publish (subscribe (subscribe bus ty S1) ty S2) e).trace =
      [.canHandleEvaluated S1.sid, .handleInvoked S1.sid] ++
        handleResultTrace e (S1.handle e) ++
      ([.canHandleEvaluated S2.sid, .handleInvoked S2.sid] ++
        handleResultTrace e (S2.handle e)) := by
  subst hty
  refine ⟨fun b t s => subscribersAt_subscribe b t s, ?_⟩
  have hsubs2 : dictFind (subscribe (subscribe bus e.ty S1) e.ty S2).subscribers e.ty
      = some [S1, S2] := by
    simp [subscribe, dictFind_dictAppend_self, habs]
  have hfil2 : dictFind (subscribe (subscribe bus e.ty S1) e.ty S2).filters e.ty = none := by
    simpa [subscribe] using hfil
  have hsh1 : should_handle (subscribe (subscribe bus e.ty S1) e.ty S2) e S1
      = (.ok true, [.canHandleEvaluated S1.sid]) := by
    unfold should_handle
    rw [h1, hfil2]
  have hsh2 : should_handle (subscribe (subscribe bus e.ty S1) e.ty S2) e S2
      = (.ok true, [.canHandleEvaluated S2.sid]) := by
    unfold should_handle
    rw [h2, hfil2]
  have hcs1 : candidateStep (subscribe (subscribe bus e.ty S1) e.ty S2) e S1
      = [.canHandleEvaluated S1.sid, .handleInvoked S1.sid] ++
          handleResultTrace e (S1.handle e) := by
    unfold candidateStep
    rw [hsh1]
    rfl
  have hcs2 : candidateStep (subscribe (subscribe bus e.ty S1) e.ty S2) e S2
      = [.canHandleEvaluated S2.sid, .handleInvoked S2.sid] ++
          handleResultTrace e (S2.handle e) := by
    unfold candidateStep
    rw [hsh2]
    rfl
  have hpub : publish (subscribe (subscribe bus e.ty S1) e.ty S2) e
      = ⟨none, dispatchLoop (subscribe (subscribe bus e.ty S1) e.ty S2) e [S1, S2],
          subscribe (subscribe bus e.ty S1) e.ty S2⟩ := by
    unfold publish
    rw [hsubs2]
  rw [hpub]
  show dispatchLoop (subscribe (subscribe bus e.ty S1) e.ty S2) e [S1, S2] = _
  simp [dispatchLoop, hcs1, hcs2, List.append_assoc]

/-- Witness for C4: S1 delivers, S2's handler fails; S1 is invoked first. -/
theorem subscribe_appends_and_orders_witness :
    (∀ (b : EventBus) (t : EventType) (s : EventSubscriber),
        subscribersAt (subscribe b t s) t = subscribersAt b t ++ [s]) ∧
    (publish (subscribe (subscribe {} .userAction (okSub 1)) .userAction (failSub 2))
        uaEvent).trace =
      [.canHandleEvaluated (okSub 1).sid, .handleInvoked (okSub 1).sid] ++
        handleResultTrace uaEvent ((okSub 1).handle uaEvent) ++
      ([.canHandleEvaluated (failSub 2).sid, .handleInvoked (failSub 2).sid] ++
        handleResultTrace uaEvent ((failSub 2).handle uaEvent)) :=
  subscribe_appends_and_orders {} .userAction (okSub 1) (failSub 2) uaEvent
    rfl rfl rfl rfl rfl

/-- C7 counterexample: the claim says a filter registered at category C also
gates events of C's refinements.  Concretely: an always-false filter is
registered at the root `Event` category, a subscriber is registered at
`UserActionEvent` (which refines the root), and a `UserActionEvent` is
published — the event is delivered and the trace contains no filter
evaluation at all: the rejecting ancestor filter is ignored. -/
theorem ancestor_filter_not_applied :
    refines .userAction .event = true ∧
    falseFilter uaEvent = .ok false ∧
    filtersAt (add_filter (subscribe {} .userAction (okSub 1)) .event falseFilter) .event
      = [falseFilter] ∧
    (publish (add_filter (subscribe {} .userAction (okSub 1)) .event falseFilter)
        uaEvent).trace = [.canHandleEvaluated 1, .handleInvoked 1] :=
  ⟨rfl, rfl, rfl, rfl⟩

/-- C7 amended: `_should_handle` consults only the filter list stored under
the event's exact category — two buses whose filter dicts agree on that one
key produce identical decisions and traces, whatever filters are registered
at ancestor (or any other) categories. -/
theorem should_handle_exact_filters_only (bus1 bus2 : EventBus) (e : Event)
    (s : EventSubscriber)
    (h : dictFind bus1.filters e.ty = dictFind bus2.filters e.ty) :
    should_handle bus1 e s = should_handle bus2 e s := by
  unfold should_handle
  rw [h]

/-- Witness for C7 amended: adding a filter at the root category does not
change `_should_handle` for a `UserActionEvent`. -/
theorem should_handle_exact_filters_only_witness :
    should_handle (add_filter {} .event falseFilter) uaEvent (okSub 1) =
      should_handle {} uaEvent (okSub 1) :=
  should_handle_exact_filters_only (add_filter {} .event falseFilter) {} uaEvent (okSub 1) rfl

/-- C9: when a self-accepting candidate's filter evaluation raises, the
exception is caught by `publish`: the result is still `None` (nothing
propagates to the caller), the candidate's segment of the trace ends with
the printed error and contains no `handle` invocation (the event is not
delivered to it), and the remaining candidates are processed exactly as on
their own. -/
theorem filter_exception_isolated (bus : EventBus) (e : Event) (s : EventSubscriber)
    (m : Err) (l1 l2 : List EventSubscriber)
    (_hch : s.can_handle e = .ok true)
    (herr : (should_handle bus e s).1 = .error m)
    (hsubs : dictFind bus.subscribers e.ty = some (l1 ++ s :: l2)) :
    (publish bus e).ret = none ∧
    (publish bus e).trace =
      dispatchLoop bus e l1 ++
        ((should_handle bus e s).2 ++ [.errorPrinted e.name m]) ++
        dispatchLoop bus e l2 ∧
    ∀ i, Action.handleInvoked i ∉
      (should_handle bus e s).2 ++ [Action.errorPrinted e.name m] := by
  have hstep : candidateStep bus e s =
      (should_handle bus e s).2 ++ [.errorPrinted e.name m] := by
    rcases hsh : should_handle bus e s with ⟨r, t⟩
    rw [hsh] at herr
    simp at herr
    subst herr
    unfold candidateStep
    rw [hsh]
  have hpub : publish bus e = ⟨none, dispatchLoop bus e (l1 ++ s :: l2), bus⟩ := by
    unfold publish
    rw [hsubs]
  refine ⟨by rw [hpub], ?_, ?_⟩
  · rw [hpub]
    show dispatchLoop bus e (l1 ++ s :: l2) = _
    rw [dispatchLoop_append bus e l1 (s :: l2)]
    show dispatchLoop bus e l1 ++ (candidateStep bus e s ++ dispatchLoop bus e l2) = _
    rw [hstep]
    simp [List.append_assoc]
  · intro i hmem
    rcases List.mem_append.mp hmem with hmem | hmem
    · exact should_handle_trace_no_handleInvoked bus e s i hmem
    · simp at hmem

/-- Witness for C9: a raising filter at the candidates' category; the first
candidate gets the printed error, the second is still processed. -/
theorem filter_exception_isolated_witness :
    (publish (add_filter (subscribe (subscribe {} .userAction (okSub 1)) .userAction (okSub 2))
        .userAction raiseFilter) uaEvent).ret = none ∧
    (publish (add_filter (subscribe (subscribe {} .userAction (okSub 1)) .userAction (okSub 2))
        .userAction raiseFilter) uaEvent).trace =
      dispatchLoop (add_filter (subscribe (subscribe {} .userAction (okSub 1)) .userAction
          (okSub 2)) .userAction raiseFilter) uaEvent [] ++
        ((should_handle (add_filter (subscribe (subscribe {} .userAction (okSub 1)) .userAction
            (okSub 2)) .userAction raiseFilter) uaEvent (okSub 1)).2 ++
          [.errorPrinted uaEvent.name "bad filter"]) ++
        dispatchLoop (add_filter (subscribe (subscribe {} .userAction (okSub 1)) .userAction
          (okSub 2)) .userAction raiseFilter) uaEvent [okSub 2] ∧
    ∀ i, Action.handleInvoked i ∉
      (should_handle (add_filter (subscribe (subscribe {} .userAction (okSub 1)) .userAction
          (okSub 2)) .userAction raiseFilter) uaEvent (okSub 1)).2 ++
        [Action.errorPrinted uaEvent.name "bad filter"] :=
  filter_exception_isolated
    (add_filter (subscribe (subscribe {} .userAction (okSub 1)) .userAction (okSub 2))
      .userAction raiseFilter)
    uaEvent (okSub 1) "bad filter" [] [okSub 2] rfl rfl rfl

end EventDispatch
